import Mathlib

/-!
Verification of the `seri` timetable compiler (Rust) against its
natural-language specification.

The development shallowly embeds the parts of the program that the claims
talk about:

* `src/event.rs`: the event type and its kinds, the event-block parser,
  the bounding-box computation (`find_bounding_box`, `BoundingBox`);
* `src/passes/parser.rs`: `ParseTimetable::apply`;
* `src/main.rs` together with `src/passes.rs`: the pass-chaining
  combinators and `generate_tikz`.

Modelling conventions:

* `chrono::DateTime<Local>` is modelled as a naive civil datetime at
  minute resolution (the program only ever builds datetimes parsed with
  the format `%Y-%m-%d %H:%M`, so seconds and sub-seconds are always
  zero; timezone/DST subtleties of `Local` are out of scope).  Fields are
  unbounded `Int`s; chrono's constructors (`with_day`, ...) validate the
  resulting date exactly as the library does, returning `none` on an
  invalid combination.
* Rust machine integers (`u32`, `i32`) are modelled as `Nat`/`Int`; the
  places where wrap-around or underflow could occur are noted next to the
  definitions.
* `Result<T, E>` is `Except E T`, `Option<T>` is `Option T`.
-/

deriving instance DecidableEq for Except

namespace Seri

/-! ## Civil datetimes (model of `chrono::DateTime<Local>` at minute resolution) -/

/-- A civil datetime: year, month (1-12), day (1-31), hour, minute.
Models `chrono::DateTime<Local>` as used by the program (seconds are
always zero there). -/
structure DateTime where
  year : Int
  month : Int
  day : Int
  hour : Int
  minute : Int
deriving DecidableEq, Repr

/-- Gregorian leap year (as implemented by chrono / the proleptic
Gregorian calendar). -/
def isLeapYear (y : Int) : Bool :=
  y % 4 = 0 && (y % 100 ≠ 0 || y % 400 = 0)

/-- Number of days of month `m` (1-12) of year `y`. -/
def daysInMonth (y m : Int) : Int :=
  if m = 1 then 31 else if m = 2 then (if isLeapYear y then 29 else 28)
  else if m = 3 then 31 else if m = 4 then 30 else if m = 5 then 31
  else if m = 6 then 30 else if m = 7 then 31 else if m = 8 then 31
  else if m = 9 then 30 else if m = 10 then 31 else if m = 11 then 30
  else if m = 12 then 31 else 0

/-- Is `(y, m, d)` a real calendar date?  This is the validity check chrono
performs in `with_day` / `with_month` / `with_year`. -/
def validDate (y m d : Int) : Bool :=
  1 ≤ m && m ≤ 12 && 1 ≤ d && d ≤ daysInMonth y m

/-- Model of chrono: `DateTime::with_hour` — replace the hour, `None` if out of range. -/
def DateTime.withHour (dt : DateTime) (h : Int) : Option DateTime :=
  if 0 ≤ h ∧ h < 24 then some { dt with hour := h } else none

/-- Model of chrono: `DateTime::with_minute` — replace the minute, `None` if out of range. -/
def DateTime.withMinute (dt : DateTime) (m : Int) : Option DateTime :=
  if 0 ≤ m ∧ m < 60 then some { dt with minute := m } else none

/-- Model of chrono: `DateTime::with_day` — replace the day-of-month, `None` if the
resulting date is invalid. -/
def DateTime.withDay (dt : DateTime) (d : Int) : Option DateTime :=
  if validDate dt.year dt.month d then some { dt with day := d } else none

/-- Model of chrono: `DateTime::with_month` — replace the month, `None` if the
resulting date is invalid. -/
def DateTime.withMonth (dt : DateTime) (m : Int) : Option DateTime :=
  if validDate dt.year m dt.day then some { dt with month := m } else none

/-- Model of chrono: `DateTime::with_year` — replace the year, `None` if the
resulting date is invalid. -/
def DateTime.withYear (dt : DateTime) (y : Int) : Option DateTime :=
  if validDate y dt.month dt.day then some { dt with year := y } else none

/-- Three-way comparison on `Int` (the `Ord::cmp` of the Rust integer and
of chrono's components). -/
def cmpI (a b : Int) : Ordering :=
  if a < b then .lt else if a = b then .eq else .gt

/-- Model of chrono: comparison of times of day (`DateTime::time()` ordering);
lexicographic on (hour, minute) — seconds are always zero here. -/
def timeCmp (a b : DateTime) : Ordering :=
  (cmpI a.hour b.hour).then (cmpI a.minute b.minute)

/-- Model of chrono: comparison of calendar dates (`DateTime::date_naive()`
ordering); lexicographic on (year, month, day). -/
def dateCmp (a b : DateTime) : Ordering :=
  (cmpI a.year b.year).then ((cmpI a.month b.month).then (cmpI a.day b.day))

/-- Full comparison of datetimes: date first, then time of day. -/
def dtCmp (a b : DateTime) : Ordering :=
  (dateCmp a b).then (timeCmp a b)

/-- Relation: `a` is not later than `b` (chrono's `<=` on datetimes). -/
def DateTime.le (a b : DateTime) : Prop := dtCmp a b ≠ .gt

instance (a b : DateTime) : Decidable (a.le b) := by
  unfold DateTime.le; infer_instance

/-! ### Day-number conversion (model of chrono's internal date arithmetic)

The standard civil-calendar/day-number conversion (as in chrono's
`NaiveDate::from_num_days_from_ce_opt` machinery): `daysFromCivil` sends a
date to the number of days since 1970-01-01, `civilFromDays` is its
inverse. -/

/-- Days since 1970-01-01 of the civil date `(y, m, d)`. -/
def daysFromCivil (y m d : Int) : Int :=
  let y := if m ≤ 2 then y - 1 else y
  let era := Int.fdiv y 400
  let yoe := y - era * 400
  let doy := Int.fdiv (153 * (if 2 < m then m - 3 else m + 9) + 2) 5 + d - 1
  let doe := yoe * 365 + Int.fdiv yoe 4 - Int.fdiv yoe 100 + doy
  era * 146097 + doe - 719468

/-- Civil date `(y, m, d)` of the day `z` days after 1970-01-01. -/
def civilFromDays (z : Int) : Int × Int × Int :=
  let z := z + 719468
  let era := Int.fdiv z 146097
  let doe := z - era * 146097
  let yoe := Int.fdiv (doe - Int.fdiv doe 1460 + Int.fdiv doe 36524 - Int.fdiv doe 146096) 365
  let y := yoe + era * 400
  let doy := doe - (365 * yoe + Int.fdiv yoe 4 - Int.fdiv yoe 100)
  let mp := Int.fdiv (5 * doy + 2) 153
  let d := doy - Int.fdiv (153 * mp + 2) 5 + 1
  let m := if mp < 10 then mp + 3 else mp - 9
  (if m ≤ 2 then y + 1 else y, m, d)

/-- Minutes since the epoch of a datetime. -/
def DateTime.toMinutes (dt : DateTime) : Int :=
  daysFromCivil dt.year dt.month dt.day * 1440 + dt.hour * 60 + dt.minute

/-- Datetime of a number of minutes since the epoch. -/
def DateTime.ofMinutes (t : Int) : DateTime :=
  let days := Int.fdiv t 1440
  let rem := t - days * 1440
  let ymd := civilFromDays days
  ⟨ymd.1, ymd.2.1, ymd.2.2, Int.fdiv rem 60, rem - Int.fdiv rem 60 * 60⟩

/-- Model of chrono: `dt + Duration::minutes(n)`. -/
def addMinutes (dt : DateTime) (n : Int) : DateTime :=
  DateTime.ofMinutes (dt.toMinutes + n)

/-! ## Rust string primitives

The Rust `str` methods the program uses (`trim`, `split`, `split_once`,
`replace`, `to_lowercase`, `join`), modelled on `List Char` by structural
recursion so that every concrete computation reduces.  All the inputs the
claims exercise are ASCII, where these models agree with the Unicode-aware
Rust originals. -/

/-- Rust `char::is_whitespace`, restricted to the ASCII whitespace
characters (the inputs in scope are ASCII). -/
def isRustWhitespace (c : Char) : Bool :=
  c = ' ' || c = '\t' || c = '\n' || c = '\r'

/-- Remove leading and trailing whitespace from a character list. -/
def trimChars (l : List Char) : List Char :=
  ((l.dropWhile isRustWhitespace).reverse.dropWhile isRustWhitespace).reverse

/-- Rust `str::trim`. -/
def strTrim (s : String) : String :=
  String.mk (trimChars s.toList)

/-- Rust `char::to_lowercase` on ASCII letters. -/
def charToLowerAscii (c : Char) : Char :=
  if 'A' ≤ c ∧ c ≤ 'Z' then Char.ofNat (c.toNat + 32) else c

/-- Rust `str::to_lowercase` (ASCII fragment). -/
def strToLower (s : String) : String :=
  String.mk (s.toList.map charToLowerAscii)

/-- Find the first occurrence of `sep` in a list: `some (before, after)`
where `after` starts right past the separator, `none` when absent. -/
def breakOnSep (sep : List Char) : List Char → Option (List Char × List Char)
  | [] => if sep = [] then some ([], []) else none
  | c :: rest =>
    if sep.isPrefixOf (c :: rest) then some ([], (c :: rest).drop sep.length)
    else (breakOnSep sep rest).map (fun p => (c :: p.1, p.2))

/-- Split at every non-overlapping occurrence of `sep`, with enough fuel
(`sep` is non-empty at every use site, so each occurrence consumes at
least one character and `length + 1` steps always suffice). -/
def splitSepN (sep : List Char) : Nat → List Char → List (List Char)
  | 0, l => [l]
  | n + 1, l =>
    match breakOnSep sep l with
    | none => [l]
    | some p => p.1 :: splitSepN sep n p.2

/-- Rust `str::split` with a non-empty string pattern. -/
def strSplit (s sep : String) : List String :=
  (splitSepN sep.toList (s.toList.length + 1) s.toList).map String.mk

/-- Rust `str::split_once`. -/
def strSplitOnce (s sep : String) : Option (String × String) :=
  (breakOnSep sep.toList s.toList).map (fun p => (String.mk p.1, String.mk p.2))

/-- Replace successive non-overlapping occurrences, with fuel as in
`splitSepN`. -/
def replaceSepN (pat rep : List Char) : Nat → List Char → List Char
  | 0, l => l
  | n + 1, l =>
    match breakOnSep pat l with
    | none => l
    | some p => p.1 ++ rep ++ replaceSepN pat rep n p.2

/-- Rust `str::replace` with a non-empty string pattern. -/
def strReplace (s pat rep : String) : String :=
  String.mk (replaceSepN pat.toList rep.toList (s.toList.length + 1) s.toList)

/-- Rust `[String]::join`. -/
def strJoin (sep : String) : List String → String
  | [] => ""
  | [x] => x
  | x :: y :: xs => x ++ sep ++ strJoin sep (y :: xs)

/-! ## `src/event.rs` — event kinds -/

/-- Source `event.rs`: `enum Type` — the type of a timetable event.  (`Type` is a
reserved word in Lean, hence `EventType`; the constructors `break` and
`fun` are keywords too and are called `breakT` and `funT`.) -/
inductive EventType where
  | talk
  | meal
  | breakT
  | funT
  | transport
deriving DecidableEq, Repr

/-- Source `event.rs`: `struct InvalidTalkType(pub String)`. -/
structure InvalidTalkType where
  s : String
deriving DecidableEq, Repr

/-- Source `event.rs`: `impl FromStr for Type` — lowercases the input (the tokens
are ASCII, so ASCII lowercasing coincides with Rust's `to_lowercase`) and
matches it against the canonical tokens; the error carries the lowercased
input. -/
def EventType.fromStr (input : String) : Except InvalidTalkType EventType :=
  let l := strToLower input
  if l = "talk" then .ok .talk
  else if l = "meal" then .ok .meal
  else if l = "break" then .ok .breakT
  else if l = "fun" then .ok .funT
  else if l = "transport" then .ok .transport
  else .error ⟨l⟩

/-- Source `event.rs`: `impl fmt::Display for Type`. -/
def EventType.display : EventType → String
  | .talk => "talk"
  | .meal => "meal"
  | .breakT => "break"
  | .funT => "fun"
  | .transport => "transport"

/-! ## `src/event.rs` — events and short text -/

/-- Source `event.rs`: `struct Event`.  The `language` field holds the raw value
of the `lang` setting; the `isolang` lookup (`Language::from_639_1`, an
external crate) is not modelled — no claim depends on this field. -/
structure Event where
  event_type : EventType
  title : String
  start_date : DateTime
  /-- duration in minutes (`u32` in the source) -/
  duration : Nat
  description : Option String
  language : Option String
  speakers : List String
deriving DecidableEq, Repr

/-- Source `event.rs`: `cut_text` — cut a text to be at most `length` characters;
if `length < 3` the result may actually have `length + 3` characters. -/
def cut_text (text : String) (length : Nat) : String :=
  let cs := text.toList
  if cs.length ≤ length then String.mk cs
  else String.mk (cs.take (if 3 < length then length - 3 else length)) ++ "..."

/-- Source `event.rs`: `Event::short_title`. -/
def Event.short_title (e : Event) (length : Nat) : String :=
  cut_text e.title length

/-- Source `event.rs`: `Event::speakers_string`. -/
def Event.speakers_string (e : Event) : String :=
  strJoin ", " e.speakers

/-- Source `event.rs`: `Event::short_text` — the match on `speakers.len()`
(`0`, `1`, `2`, `_`) is rendered as the corresponding list patterns. -/
def Event.short_text (e : Event) : String :=
  match e.event_type with
  | .talk =>
    match e.speakers with
    | [] => e.short_title 30
    | [a] => a
    | [a, b] => a ++ " and " ++ b
    | a :: _ => a ++ " et~al."
  | _ => e.short_title 30

/-! ## `src/event.rs` — header parsing -/

/-- Source `event.rs`: `struct InvalidField(pub String)`. -/
structure InvalidField where
  line : String
deriving DecidableEq, Repr

/-- Source `event.rs`: `enum ParsingError`.  The payload of
`CouldNotParseDuration` (a `std::num::ParseIntError`) is not modelled. -/
inductive ParsingError where
  | couldNotParseDuration
  | settingNotFound (name : String)
  | couldNotSplit
  | invalidTalkType (e : InvalidTalkType)
  | invalidField (e : InvalidField)
  | invalidDateShape (s : String)
deriving DecidableEq, Repr

/-- Model of `str::find(':')` followed by `split_at`: the characters before the
first `':'` and the characters after it, or `none` when there is no
`':'`. -/
def splitAtColon : List Char → Option (List Char × List Char)
  | [] => none
  | c :: cs =>
    if c = ':' then some ([], cs)
    else (splitAtColon cs).map (fun p => (c :: p.1, p.2))

/-- One step of `split_pairs`: the lines, in order; the first line without
a `':'` yields the error, otherwise each line `key:value` becomes the pair
`(key, value.trim())` (the key is not trimmed). -/
def splitPairsGo : List String → Except InvalidField (List (String × String))
  | [] => .ok []
  | l :: ls =>
    match splitAtColon l.toList with
    | none => .error ⟨l⟩
    | some p =>
      (splitPairsGo ls).map (fun ps => (String.mk p.1, strTrim (String.mk p.2)) :: ps)

/-- Source `event.rs`: `split_pairs` — split the header into `key:value` pairs. -/
def split_pairs (s : String) : Except InvalidField (List (String × String)) :=
  splitPairsGo (strSplit s "\n")

/-- Lookup in the settings.  The Rust code collects the pairs into a
`HashMap`, where a later pair with the same key overwrites an earlier one,
so the lookup returns the value of the last pair with the given key. -/
def lookupLast (ps : List (String × String)) (k : String) : Option String :=
  ((ps.filter (fun p => p.1 == k)).getLast?).map (fun p => p.2)

/-- All-digit string to number (`none` when empty or non-digit). -/
def digitsToNat (cs : List Char) : Option Nat :=
  if cs ≠ [] ∧ cs.all Char.isDigit then
    some (cs.foldl (fun a c => a * 10 + (c.toNat - 48)) 0)
  else none

/-- Rust `u32::from_str`: an optional leading `+`, then digits; fails on
overflow past `u32::MAX`. -/
def parseU32 (s : String) : Option Nat :=
  let cs := match s.toList with
    | '+' :: rest => rest
    | cs => cs
  match digitsToNat cs with
  | some n => if n < 2 ^ 32 then some n else none
  | none => none

/-- Model of chrono: `Local.datetime_from_str(s, "%Y-%m-%d %H:%M")`, modelled for
that fixed format string: `year-month-day hour:minute` with numeric
fields (month, day, hour and minute at most two digits, as chrono's
padded numeric items read at most two), validated as a real calendar
date and time of day.  `Local` DST edge cases are out of scope. -/
def parseDateTime (s : String) : Option DateTime :=
  match strSplit s " " with
  | [d, t] =>
    match strSplit d "-", strSplit t ":" with
    | [ys, ms, ds], [hs, mins] =>
      match digitsToNat ys.toList, digitsToNat ms.toList, digitsToNat ds.toList,
            digitsToNat hs.toList, digitsToNat mins.toList with
      | some y, some m, some dd, some h, some mi =>
        if ms.length ≤ 2 ∧ ds.length ≤ 2 ∧ hs.length ≤ 2 ∧ mins.length ≤ 2
            ∧ validDate y m dd ∧ h < 24 ∧ mi < 60 then
          some ⟨y, m, dd, h, mi⟩
        else none
      | _, _, _, _, _ => none
    | _, _ => none
  | _ => none

/-- Source `event.rs`, `Event::from_str` lines 180-188: trim the block, then split
it at the first blank line into the header and the (optional, trimmed,
non-empty) description. -/
def headerAndDescription (s : String) : String × Option String :=
  let trimmed := strTrim s
  match strSplitOnce trimmed "\n\n" with
  | some p =>
    let text := strTrim p.2
    (strTrim p.1, if text = "" then none else some text)
  | none => (trimmed, none)

/-- Source `event.rs`: `impl FromStr for Event` — parse one event block. -/
def Event.fromStr (s : String) : Except ParsingError Event :=
  let hd := headerAndDescription s
  match split_pairs hd.1 with
  | .error e => .error (.invalidField e)
  | .ok settings =>
    match (match lookupLast settings "type" with
           | some talk_type => (EventType.fromStr talk_type).mapError ParsingError.invalidTalkType
           | none => .ok EventType.talk) with
    | .error e => .error e
    | .ok event_type =>
      let language := lookupLast settings "lang"
      let title := (lookupLast settings "title").getD "(no title)"
      match lookupLast settings "date" with
      | none => .error (.settingNotFound "date")
      | some ds =>
        match parseDateTime ds with
        | none => .error (.invalidDateShape ds)
        | some start_date =>
          match lookupLast settings "duration" with
          | none => .error (.settingNotFound "duration")
          | some dus =>
            match parseU32 dus with
            | none => .error .couldNotParseDuration
            | some duration =>
              let speakers :=
                ((lookupLast settings "speakers").map (fun l =>
                  (strSplit (strReplace (strReplace l "[" "") "]" "") ",").map strTrim
                    |>.filter (fun sp => sp != ""))).getD []
              let nonempty_description :=
                match hd.2.map strTrim with
                | some d => if d = "" then none else some d
                | none => none
              .ok { event_type, title, start_date, duration,
                    description := nonempty_description, language, speakers }

/-! ## `src/event.rs` — bounding boxes -/

/-- Source `event.rs`: `struct BoundingBox`. -/
structure BoundingBox where
  up_left : DateTime
  down_right : DateTime
deriving DecidableEq, Repr

/-- Source `event.rs`: `BoundingBox::nb_days` — `down_right.day() - up_left.day() + 1`.
The subtraction is on `u32` day-of-month values in the source (which would
panic on underflow in a debug build); every input considered here keeps it
non-negative. -/
def BoundingBox.nb_days (bb : BoundingBox) : Int :=
  bb.down_right.day - bb.up_left.day + 1

/-- Source `event.rs`: `BoundingBox::boundary` — take `first`, move its time of
day to `second`'s when `second`'s time compares as `order`, and move its
calendar date (day, then month, then year, each step validated) to
`second`'s when `second`'s date compares as `order`. -/
def boundary (order : Ordering) (first second : DateTime) : Option DateTime :=
  match (if timeCmp second first = order then
           (first.withHour second.hour).bind (fun r => r.withMinute second.minute)
         else some first) with
  | none => none
  | some res =>
    if dateCmp second first = order then
      (res.withDay second.day).bind (fun r =>
        (r.withMonth second.month).bind (fun r2 => r2.withYear second.year))
    else some res

/-- Source `event.rs`: `BoundingBox::top_left_boundary`. -/
def top_left_boundary (first second : DateTime) : Option DateTime :=
  boundary .lt first second

/-- Source `event.rs`: `BoundingBox::bottom_right_boundary`. -/
def bottom_right_boundary (first second : DateTime) : Option DateTime :=
  boundary .gt first second

/-- The loop of `find_bounding_box`: fold every event (the first one
included, as in the source) into the two accumulators. -/
def fbbGo : List Event → DateTime → DateTime → Option BoundingBox
  | [], ul, dr => some ⟨ul, dr⟩
  | e :: rest, ul, dr =>
    match top_left_boundary ul e.start_date with
    | none => none
    | some ul2 =>
      match bottom_right_boundary dr (addMinutes e.start_date e.duration) with
      | none => none
      | some dr2 => fbbGo rest ul2 dr2

/-- Source `event.rs`: `find_bounding_box` — `None` on an empty list, otherwise
both accumulators start at the first event's start date and every event is
folded in. -/
def find_bounding_box (events : List Event) : Option BoundingBox :=
  match events with
  | [] => none
  | first :: _ => fbbGo events first.start_date first.start_date

/-! ## `src/passes/parser.rs` — `ParseTimetable` -/

/-- Model of `Iterator::collect::<Result<Vec<_>, _>>` over `Event::from_str`: stop
at the first failing block, keep every parsed event otherwise. -/
def mapCollectEvents : List String → Except ParsingError (List Event)
  | [] => .ok []
  | b :: bs =>
    match Event.fromStr b with
    | .error e => .error e
    | .ok ev => (mapCollectEvents bs).map (fun evs => ev :: evs)

/-- Source `parser.rs`: `ParseTimetable::apply` —
`s.split("---").map(Event::from_str).collect()`. -/
def ParseTimetable.apply (s : String) : Except ParsingError (List Event) :=
  mapCollectEvents (strSplit s "---")

/-! ## `src/passes.rs` and `src/main.rs` — pass chaining -/

/-- Source `passes/tikz.rs`: `struct Options`. -/
structure TikzOptions where
  template_path : Option String
deriving DecidableEq, Repr

/-- Source `passes/tikz.rs`: `enum Error`.  The payloads of the variants of
backends that are not modelled (`io::Error`, templating errors) are
dropped; no claim inspects them. -/
inductive TikzError where
  | couldNotParseEvent (e : ParsingError)
  | noEventProvided
  | invalidDatetime
  | couldNotReadTemplate
  | couldNotReplaceTemplate
deriving DecidableEq, Repr

/-- Source `main.rs`: `enum CompilerError`.  The variants of the backends that
are not modelled (`HTML`, `AbsTex`, `Latexmk`, io) carry no payload
here; no claim inspects them. -/
inductive CompilerError where
  | couldNotParseSeri (e : ParsingError)
  | couldNotGenerateHTML
  | couldNotGenerateAbsTex
  | couldNotGenerateTikz (e : TikzError)
  | couldNotCallLatexmk
  | backendNotImplemented (s : String)
  | couldNotReadUtf8
deriving DecidableEq, Repr

/-- Model of `String::into_bytes` — the UTF-8 bytes of the string. -/
def stringIntoBytes (s : String) : List UInt8 :=
  s.toUTF8.toList

/-- Source `passes.rs`: `PassInput::chain_pass` — apply the pass to the value. -/
def chainPass {α ε ρ : Type} (x : α) (apply : α → Except ε ρ) : Except ε ρ :=
  apply x

/-- Source `passes.rs`: `PassInput::chain_pass_with` — apply the pass to the
value with a context. -/
def chainPassWith {α γ ε ρ : Type} (x : α) (ctx : γ) (applyWith : α → γ → Except ε ρ) :
    Except ε ρ :=
  applyWith x ctx

/-- Source `main.rs`: `generate_tikz` — chain `ParseTimetable` and then the TikZ
pass, converting each error into `CompilerError` (the `?` operator uses
the `From` conversion `CouldNotParseSeri`).  The TikZ pass itself (a
templating backend) is a parameter: the claims about `generate_tikz` only
concern how the composition treats it. -/
def generate_tikz (tikzApplyWith : List Event → TikzOptions → Except TikzError String)
    (options : TikzOptions) (content : String) : Except CompilerError (List UInt8) :=
  match chainPass content ParseTimetable.apply with
  | .error e => .error (.couldNotParseSeri e)
  | .ok events =>
    ((chainPassWith events options tikzApplyWith).map stringIntoBytes).mapError
      .couldNotGenerateTikz

/-! ## Spec-side comparator and concrete fixtures -/

/-- Spec-side definition (for comparison with `BoundingBox.nb_days`): the
inclusive number of calendar days spanned by a bounding box, "computed
from the calendar-day difference between the two corners plus one". -/
def spec_day_count (bb : BoundingBox) : Int :=
  daysFromCivil bb.down_right.year bb.down_right.month bb.down_right.day
    - daysFromCivil bb.up_left.year bb.up_left.month bb.up_left.day + 1

/-- Event starting 2023-02-01 09:00, duration 0. -/
def evFeb1 : Event :=
  ⟨.talk, "a", ⟨2023, 2, 1, 9, 0⟩, 0, none, none, []⟩

/-- Event starting 2023-01-31 08:00, duration 0. -/
def evJan31 : Event :=
  ⟨.talk, "b", ⟨2023, 1, 31, 8, 0⟩, 0, none, none, []⟩

/-- Event starting 2023-01-01 09:00, duration 0. -/
def evJan1 : Event :=
  ⟨.talk, "c", ⟨2023, 1, 1, 9, 0⟩, 0, none, none, []⟩

/-- Event starting 2023-02-01 10:00, duration 0. -/
def evFeb1Later : Event :=
  ⟨.talk, "d", ⟨2023, 2, 1, 10, 0⟩, 0, none, none, []⟩

/-- A talk with three speakers. -/
def talkABC : Event :=
  ⟨.talk, "T", ⟨2023, 1, 1, 9, 0⟩, 60, none, none, ["A", "B", "C"]⟩

/-- A document whose single event block contains `---` inside its
description text. -/
def docSplitInside : String :=
  "date: 2023-01-01 09:00\nduration: 30\n\nfoo---bar"

/-- An event block with a present but empty `title` field. -/
def titleEmptyBlock : String :=
  "title:\ndate: 2023-01-01 09:00\nduration: 30"

/-! ## Order lemmas for datetimes -/

theorem cmpI_self (a : Int) : cmpI a a = .eq := by
  simp [cmpI]

theorem cmpI_eq_lt {a b : Int} : cmpI a b = .lt ↔ a < b := by
  unfold cmpI; split_ifs with h1 h2 <;> simp_all

theorem cmpI_eq_eq {a b : Int} : cmpI a b = .eq ↔ a = b := by
  unfold cmpI; split_ifs with h1 h2 <;> simp_all
  all_goals omega

theorem cmpI_ne_gt {a b : Int} : cmpI a b ≠ .gt ↔ a ≤ b := by
  unfold cmpI; split_ifs with h1 h2 <;> simp_all
  all_goals omega

theorem then_lt_left (o : Ordering) : Ordering.lt.then o = .lt := rfl

theorem then_eq_left (o : Ordering) : Ordering.eq.then o = o := rfl

theorem then_gt_left (o : Ordering) : Ordering.gt.then o = .gt := rfl

theorem then_eq_lt {x y : Ordering} : x.then y = .lt ↔ (x = .lt ∨ (x = .eq ∧ y = .lt)) := by
  cases x <;> simp [Ordering.then]

theorem then_eq_eq {x y : Ordering} : x.then y = .eq ↔ (x = .eq ∧ y = .eq) := by
  cases x <;> simp [Ordering.then]

theorem then_ne_gt {x y : Ordering} : x.then y ≠ .gt ↔ (x = .lt ∨ (x = .eq ∧ y ≠ .gt)) := by
  cases x <;> simp [Ordering.then]

/-- Unfolding of `DateTime.le` into arithmetic on the five fields. -/
theorem DateTime.le_iff {a b : DateTime} :
    a.le b ↔ (a.year < b.year ∨ (a.year = b.year ∧
      (a.month < b.month ∨ (a.month = b.month ∧
        (a.day < b.day ∨ (a.day = b.day ∧
          (a.hour < b.hour ∨ (a.hour = b.hour ∧
            (a.minute < b.minute ∨ a.minute = b.minute))))))))) := by
  simp only [DateTime.le, dtCmp, dateCmp, timeCmp, then_ne_gt, then_eq_lt, then_eq_eq,
    cmpI_eq_lt, cmpI_eq_eq, cmpI_ne_gt]
  constructor <;> intro h <;> omega

theorem DateTime.le_refl (a : DateTime) : a.le a := by
  rw [DateTime.le_iff]; omega

theorem DateTime.le_trans {a b c : DateTime} (h1 : a.le b) (h2 : b.le c) : a.le c := by
  rw [DateTime.le_iff] at h1 h2 ⊢; omega

/-- The time-of-day substitution of `boundary` (when it succeeds) keeps
the date of `first` and takes the time of `second`. -/
theorem withHourMinute_eq {first second r : DateTime}
    (h : (first.withHour second.hour).bind (fun x => x.withMinute second.minute) = some r) :
    r = ⟨first.year, first.month, first.day, second.hour, second.minute⟩ := by
  unfold DateTime.withHour at h
  by_cases hc : 0 ≤ second.hour ∧ second.hour < 24
  · rw [if_pos hc, Option.some_bind] at h
    unfold DateTime.withMinute at h
    by_cases hc2 : 0 ≤ second.minute ∧ second.minute < 60
    · rw [if_pos hc2] at h
      exact (Option.some.inj h).symm
    · rw [if_neg hc2] at h; cases h
  · rw [if_neg hc, Option.none_bind] at h; cases h

/-- The date substitution of `boundary` (when it succeeds) keeps the time
of `res` and takes the date of `second`. -/
theorem withDayMonthYear_eq {res second r : DateTime}
    (h : (res.withDay second.day).bind (fun x =>
          (x.withMonth second.month).bind (fun y => y.withYear second.year)) = some r) :
    r = ⟨second.year, second.month, second.day, res.hour, res.minute⟩ := by
  unfold DateTime.withDay at h
  by_cases hc : validDate res.year res.month second.day = true
  · rw [if_pos hc, Option.some_bind] at h
    unfold DateTime.withMonth at h
    by_cases hc2 : validDate res.year second.month second.day = true
    · rw [if_pos hc2, Option.some_bind] at h
      unfold DateTime.withYear at h
      by_cases hc3 : validDate second.year second.month second.day = true
      · rw [if_pos hc3] at h
        exact (Option.some.inj h).symm
      · rw [if_neg hc3] at h; cases h
    · rw [if_neg hc2] at h; cases h
  · rw [if_neg hc, Option.none_bind] at h; cases h

theorem then_eq_gt {x y : Ordering} : x.then y = .gt ↔ (x = .gt ∨ (x = .eq ∧ y = .gt)) := by
  cases x <;> simp [Ordering.then]

theorem cmpI_eq_gt {a b : Int} : cmpI a b = .gt ↔ b < a := by
  unfold cmpI; split_ifs with h1 h2 <;> simp_all <;> omega

theorem dateCmp_lt_arith {a b : DateTime} :
    dateCmp a b = .lt ↔ (a.year < b.year ∨ (a.year = b.year ∧
      (a.month < b.month ∨ (a.month = b.month ∧ a.day < b.day)))) := by
  simp only [dateCmp, then_eq_lt, then_eq_eq, cmpI_eq_lt, cmpI_eq_eq]

theorem dateCmp_gt_arith {a b : DateTime} :
    dateCmp a b = .gt ↔ (b.year < a.year ∨ (a.year = b.year ∧
      (b.month < a.month ∨ (a.month = b.month ∧ b.day < a.day)))) := by
  simp only [dateCmp, then_eq_gt, then_eq_eq, cmpI_eq_gt, cmpI_eq_eq]

theorem timeCmp_lt_arith {a b : DateTime} :
    timeCmp a b = .lt ↔ (a.hour < b.hour ∨ (a.hour = b.hour ∧ a.minute < b.minute)) := by
  simp only [timeCmp, then_eq_lt, then_eq_eq, cmpI_eq_lt, cmpI_eq_eq]

theorem timeCmp_gt_arith {a b : DateTime} :
    timeCmp a b = .gt ↔ (b.hour < a.hour ∨ (a.hour = b.hour ∧ b.minute < a.minute)) := by
  simp only [timeCmp, then_eq_gt, then_eq_eq, cmpI_eq_gt, cmpI_eq_eq]

/-- The result of `top_left_boundary` is never later than its first
argument. -/
theorem boundary_lt_le {first second r : DateTime}
    (h : boundary .lt first second = some r) : r.le first := by
  unfold boundary at h
  split at h
  · cases h
  · rename_i res heq
    split at h
    · rename_i hd
      have hr := withDayMonthYear_eq h
      subst hr
      rw [dateCmp_lt_arith] at hd
      split at heq
      · have hres := withHourMinute_eq heq
        subst hres
        rw [DateTime.le_iff]; dsimp only; omega
      · cases heq
        rw [DateTime.le_iff]; dsimp only; omega
    · cases h
      split at heq
      · rename_i ht
        have hres := withHourMinute_eq heq
        subst hres
        rw [timeCmp_lt_arith] at ht
        rw [DateTime.le_iff]; dsimp only; omega
      · cases heq
        exact DateTime.le_refl first

/-- The result of `bottom_right_boundary` is never earlier than its first
argument. -/
theorem boundary_gt_le {first second r : DateTime}
    (h : boundary .gt first second = some r) : first.le r := by
  unfold boundary at h
  split at h
  · cases h
  · rename_i res heq
    split at h
    · rename_i hd
      have hr := withDayMonthYear_eq h
      subst hr
      rw [dateCmp_gt_arith] at hd
      split at heq
      · have hres := withHourMinute_eq heq
        subst hres
        rw [DateTime.le_iff]; dsimp only; omega
      · cases heq
        rw [DateTime.le_iff]; dsimp only; omega
    · cases h
      split at heq
      · rename_i ht
        have hres := withHourMinute_eq heq
        subst hres
        rw [timeCmp_gt_arith] at ht
        rw [DateTime.le_iff]; dsimp only; omega
      · cases heq
        exact DateTime.le_refl first

/-- Invariant of the `find_bounding_box` loop: the accumulators only ever
move outward. -/
theorem fbbGo_le (es : List Event) :
    ∀ ul dr bb, fbbGo es ul dr = some bb → bb.up_left.le ul ∧ dr.le bb.down_right := by
  induction es with
  | nil =>
    intro ul dr bb h
    cases h
    exact ⟨DateTime.le_refl ul, DateTime.le_refl dr⟩
  | cons e rest ih =>
    intro ul dr bb h
    unfold fbbGo at h
    split at h
    · cases h
    · rename_i ul2 hul
      split at h
      · cases h
      · rename_i dr2 hdr
        obtain ⟨h1, h2⟩ := ih ul2 dr2 bb h
        exact ⟨DateTime.le_trans h1 (boundary_lt_le hul),
               DateTime.le_trans (boundary_gt_le hdr) h2⟩

/-! ## Claims -/

/-- C1: `find_bounding_box` does return the distinct absence outcome
(`None`) on the empty list and never a degenerate box there; but `None` is
not returned *exactly* on the empty list: on the non-empty list
`[evFeb1, evJan31]` the intermediate `with_day(31)` substitution lands on
the invalid date February 31 and the function returns `None` as well,
contradicting the claim that every non-empty list yields a bounding
box. -/
theorem find_bounding_box_none_beyond_empty :
    find_bounding_box [] = none ∧
    find_bounding_box [evFeb1, evJan31] = none ∧
    [evFeb1, evJan31] ≠ ([] : List Event) := by
  refine ⟨rfl, by decide, by decide⟩

/-- C2: `nb_days` subtracts day-of-month numbers only, so across a month
boundary it diverges from the inclusive calendar-day span the claim
specifies: the box computed from events on 2023-01-01 and 2023-02-01 has
`nb_days = 1` while the true inclusive span is 32 days. -/
theorem nb_days_diverges_across_months :
    find_bounding_box [evJan1, evFeb1Later] =
      some ⟨⟨2023, 1, 1, 9, 0⟩, ⟨2023, 2, 1, 10, 0⟩⟩ ∧
    BoundingBox.nb_days ⟨⟨2023, 1, 1, 9, 0⟩, ⟨2023, 2, 1, 10, 0⟩⟩ = 1 ∧
    spec_day_count ⟨⟨2023, 1, 1, 9, 0⟩, ⟨2023, 2, 1, 10, 0⟩⟩ = 32 ∧
    BoundingBox.nb_days ⟨⟨2023, 1, 1, 9, 0⟩, ⟨2023, 2, 1, 10, 0⟩⟩ ≠
      spec_day_count ⟨⟨2023, 1, 1, 9, 0⟩, ⟨2023, 2, 1, 10, 0⟩⟩ := by
  refine ⟨by decide, by decide, by decide, by decide⟩

/-- C3: `ParseTimetable::apply` splits on every occurrence of the
substring `---`, not only on delimiter lines: a document whose single
block contains `---` inside its description text is torn apart (the tail
`bar` is no valid block, so the whole parse errors), although the very
same document parses as one event — with `foo---bar` as description —
when handed to the block parser directly. -/
theorem apply_splits_inside_block_text :
    ParseTimetable.apply docSplitInside = .error (.invalidField ⟨"bar"⟩) ∧
    Event.fromStr docSplitInside =
      .ok ⟨.talk, "(no title)", ⟨2023, 1, 1, 9, 0⟩, 30, some "foo---bar", none, []⟩ := by
  refine ⟨by decide, by decide⟩

/-- C4: for every event kind `k`, `display k` is the lowercase canonical
token, parsing it returns `k`, and parsing is case-insensitive: every
string whose lowercasing is the canonical token parses to `k`. -/
theorem eventType_display_roundtrip (k : EventType) :
    EventType.fromStr (EventType.display k) = .ok k ∧
    strToLower (EventType.display k) = EventType.display k ∧
    ∀ s : String, strToLower s = EventType.display k → EventType.fromStr s = .ok k := by
  refine ⟨by cases k <;> decide, by cases k <;> decide, ?_⟩
  intro s hs
  simp only [EventType.fromStr, hs]
  cases k <;> decide

theorem eventType_display_roundtrip_witness :
    EventType.fromStr "TaLK" = .ok .talk :=
  (eventType_display_roundtrip .talk).2.2 "TaLK" (by decide)

/-- C6: whenever `find_bounding_box` returns a bounding box, its upper
left corner is not later than its lower right corner. -/
theorem find_bounding_box_ordered (es : List Event) (bb : BoundingBox)
    (h : find_bounding_box es = some bb) : bb.up_left.le bb.down_right := by
  cases es with
  | nil => simp [find_bounding_box] at h
  | cons first rest =>
    unfold find_bounding_box at h
    obtain ⟨h1, h2⟩ := fbbGo_le (first :: rest) first.start_date first.start_date bb h
    exact DateTime.le_trans h1 h2

theorem find_bounding_box_ordered_witness :
    DateTime.le ⟨2023, 1, 1, 9, 0⟩ ⟨2023, 1, 1, 9, 0⟩ :=
  find_bounding_box_ordered [evJan1] ⟨⟨2023, 1, 1, 9, 0⟩, ⟨2023, 1, 1, 9, 0⟩⟩ (by decide)

/-- C9: when the first pass of the chain fails, the composition
short-circuits: `generate_tikz` returns the parse error wrapped in the
common error type, and its result does not depend on the second pass at
all (so the TikZ pass is never consulted). -/
theorem chain_short_circuits (tp1 tp2 : List Event → TikzOptions → Except TikzError String)
    (opts : TikzOptions) (content : String) (e : ParsingError)
    (h : ParseTimetable.apply content = .error e) :
    generate_tikz tp1 opts content = .error (.couldNotParseSeri e) ∧
    generate_tikz tp1 opts content = generate_tikz tp2 opts content := by
  unfold generate_tikz chainPass
  rw [h]
  exact ⟨rfl, rfl⟩

theorem chain_short_circuits_witness :
    generate_tikz (fun _ _ => .ok "tikz") ⟨none⟩ "" =
      .error (.couldNotParseSeri (.invalidField ⟨""⟩)) ∧
    generate_tikz (fun _ _ => .ok "tikz") ⟨none⟩ "" =
      generate_tikz (fun _ _ => .error .noEventProvided) ⟨none⟩ "" :=
  chain_short_circuits (fun _ _ => .ok "tikz") (fun _ _ => .error .noEventProvided)
    ⟨none⟩ "" (.invalidField ⟨""⟩) (by decide)

/-- C10: the first failing block aborts the whole document: if the
blocks of a document are a prefix of well-parsing blocks followed by a
failing one, `ParseTimetable::apply` returns that block's error (and
hence no events at all). -/
theorem apply_aborts_at_first_failing_block (s : String) (pre : List String) (b : String)
    (post : List String) (e : ParsingError)
    (hsplit : strSplit s "---" = pre ++ b :: post)
    (hpre : ∀ x ∈ pre, (Event.fromStr x).isOk = true)
    (hb : Event.fromStr b = .error e) :
    ParseTimetable.apply s = .error e := by
  unfold ParseTimetable.apply
  rw [hsplit]
  clear hsplit
  induction pre with
  | nil => simp [mapCollectEvents, hb]
  | cons x xs ih =>
    have hx := hpre x (List.mem_cons_self x xs)
    rw [List.cons_append]
    show (match Event.fromStr x with
          | .error e2 => .error e2
          | .ok ev => (mapCollectEvents (xs ++ b :: post)).map (fun evs => ev :: evs)) =
        Except.error e
    cases hfx : Event.fromStr x with
    | error e2 =>
      rw [hfx] at hx
      simp [Except.isOk, Except.toBool] at hx
    | ok ev =>
      rw [ih (fun y hy => hpre y (List.mem_cons_of_mem x hy))]
      rfl

/-- C5 (counterexample): a talk with the three speakers `A`, `B`, `C`
gets short text `"A et~al."` (with the LaTeX non-breaking space `~`), not
the `"A et al."` the claim states. -/
theorem short_text_et_al_counterexample :
    Event.short_text talkABC = "A et~al." ∧
    Event.short_text talkABC ≠ "A et al." := by
  refine ⟨by decide, by decide⟩

/-- C5 (amended): the short-description policy for talks — no speakers
gives the title truncated to 30 characters with an ellipsis marker when
too long, one speaker gives that name, two speakers `A` and `B` give
`"A and B"`, three or more give the first speaker followed by `" et~al."`
(the marker carries a LaTeX `~`); non-talk kinds always use the truncated
title. -/
theorem short_text_policy (e : Event) :
    (e.event_type = .talk →
      ((e.speakers = [] → e.short_text = cut_text e.title 30) ∧
       (∀ a, e.speakers = [a] → e.short_text = a) ∧
       (∀ a b, e.speakers = [a, b] → e.short_text = a ++ " and " ++ b) ∧
       (∀ a r2, e.speakers = a :: r2 → 2 ≤ r2.length → e.short_text = a ++ " et~al."))) ∧
    (e.event_type ≠ .talk → e.short_text = cut_text e.title 30) ∧
    (∀ t : String, (t.toList.length ≤ 30 → cut_text t 30 = t) ∧
      (30 < t.toList.length → cut_text t 30 = String.mk (t.toList.take 27) ++ "...")) := by
  refine ⟨?_, ?_, ?_⟩
  · intro htalk
    refine ⟨?_, ?_, ?_, ?_⟩
    · intro hsp
      simp [Event.short_text, Event.short_title, htalk, hsp]
    · intro a hsp
      simp [Event.short_text, htalk, hsp]
    · intro a b hsp
      simp [Event.short_text, htalk, hsp]
    · intro a r2 hsp hlen
      match r2, hlen with
      | b :: c :: r3, _ =>
        simp [Event.short_text, htalk, hsp]
  · intro hk
    unfold Event.short_text
    cases he : e.event_type <;> simp_all [Event.short_title]
  · intro t
    constructor
    · intro hlen
      unfold cut_text
      rw [if_pos hlen]
      rfl
    · intro hlen
      unfold cut_text
      rw [if_neg (by omega)]
      rfl

theorem short_text_policy_witness :
    Event.short_text ⟨.talk, "T", ⟨2023, 1, 1, 9, 0⟩, 60, none, none, ["A", "B"]⟩ =
      "A" ++ " and " ++ "B" :=
  ((short_text_policy ⟨.talk, "T", ⟨2023, 1, 1, 9, 0⟩, 60, none, none, ["A", "B"]⟩).1
    rfl).2.2.1 "A" "B" rfl

/-- C7 (counterexample): the block `type: xyz` has a header that parses
into key/value pairs and lacks a `date` key, yet parsing fails with the
invalid-kind error for `xyz`, not with a missing-field error naming
`date` — the `type` field is examined before `date`. -/
theorem missing_date_counterexample :
    split_pairs "type: xyz" = .ok [("type", "xyz")] ∧
    lookupLast [("type", "xyz")] "date" = none ∧
    Event.fromStr "type: xyz" = .error (.invalidTalkType ⟨"xyz"⟩) ∧
    ParsingError.invalidTalkType ⟨"xyz"⟩ ≠ .settingNotFound "date" := by
  refine ⟨by decide, by decide, by decide, by decide⟩

/-- C7 (amended): for every block whose header parses into key/value
pairs and whose `type` field, when present, names a valid kind, a missing
`date` key makes parsing fail with the missing-field error naming `date`;
and when additionally a well-formed `date` is present, a missing
`duration` key makes parsing fail with the missing-field error naming
`duration`. -/
theorem missing_field_errors (s : String) (ps : List (String × String))
    (hps : split_pairs (headerAndDescription s).1 = .ok ps)
    (htype : lookupLast ps "type" = none ∨
      ∃ t k, lookupLast ps "type" = some t ∧ EventType.fromStr t = .ok k) :
    (lookupLast ps "date" = none → Event.fromStr s = .error (.settingNotFound "date")) ∧
    (∀ d dt, lookupLast ps "date" = some d → parseDateTime d = some dt →
      lookupLast ps "duration" = none →
      Event.fromStr s = .error (.settingNotFound "duration")) := by
  have hty : ∃ k, (match lookupLast ps "type" with
      | some talk_type => (EventType.fromStr talk_type).mapError ParsingError.invalidTalkType
      | none => .ok EventType.talk) = Except.ok k := by
    rcases htype with h | ⟨t, k, h1, h2⟩
    · exact ⟨.talk, by rw [h]⟩
    · exact ⟨k, by rw [h1]; simp [h2, Except.mapError]⟩
  obtain ⟨k, hk⟩ := hty
  constructor
  · intro hdate
    simp only [Event.fromStr]
    rw [hps]; dsimp only
    rw [hk]; dsimp only
    rw [hdate]
  · intro d dt hdate hdt hdur
    simp only [Event.fromStr]
    rw [hps]; dsimp only
    rw [hk]; dsimp only
    rw [hdate]; dsimp only
    rw [hdt]; dsimp only
    rw [hdur]

theorem missing_field_errors_witness :
    Event.fromStr "type: talk" = .error (.settingNotFound "date") ∧
    Event.fromStr "date: 2023-01-01 09:00" = .error (.settingNotFound "duration") := by
  constructor
  · exact (missing_field_errors "type: talk" [("type", "talk")] (by decide)
      (Or.inr ⟨"talk", .talk, by decide, by decide⟩)).1 (by decide)
  · exact (missing_field_errors "date: 2023-01-01 09:00" [("date", "2023-01-01 09:00")]
      (by decide) (Or.inl (by decide))).2 "2023-01-01 09:00" ⟨2023, 1, 1, 9, 0⟩
      (by decide) (by decide) (by decide)

/-- C8 (counterexample): the block `title:` + valid `date` and `duration`
parses successfully with the empty string as title — the placeholder is
not substituted for a present-but-empty `title` field. -/
theorem empty_title_counterexample :
    Event.fromStr titleEmptyBlock =
      .ok ⟨.talk, "", ⟨2023, 1, 1, 9, 0⟩, 30, none, none, []⟩ ∧
    ("" : String) ≠ "(no title)" := by
  refine ⟨by decide, by decide⟩

/-- C8 (amended): the title of every successfully parsed event is exactly
the value of the `title` header field when that key is present (even when
the value is empty), and the placeholder `"(no title)"` only when the key
is absent. -/
theorem title_default_only_when_absent (s : String) (ev : Event)
    (h : Event.fromStr s = .ok ev) :
    ∃ ps, split_pairs (headerAndDescription s).1 = .ok ps ∧
      ev.title = (lookupLast ps "title").getD "(no title)" := by
  simp only [Event.fromStr] at h
  split at h
  · cases h
  · rename_i ps hps
    split at h
    · cases h
    · split at h
      · cases h
      · rename_i ds hds
        split at h
        · cases h
        · split at h
          · cases h
          · split at h
            · cases h
            · exact ⟨ps, hps, by cases h; rfl⟩

theorem title_default_only_when_absent_witness :
    ∃ ps, split_pairs (headerAndDescription "date: 2023-01-01 09:00\nduration: 5").1 =
        .ok ps ∧
      ("(no title)" : String) = (lookupLast ps "title").getD "(no title)" :=
  title_default_only_when_absent "date: 2023-01-01 09:00\nduration: 5"
    ⟨.talk, "(no title)", ⟨2023, 1, 1, 9, 0⟩, 5, none, none, []⟩ (by decide)

theorem apply_aborts_at_first_failing_block_witness :
    ParseTimetable.apply "date: 2023-01-01 09:00\nduration: 30---oops" =
      .error (.invalidField ⟨"oops"⟩) :=
  apply_aborts_at_first_failing_block "date: 2023-01-01 09:00\nduration: 30---oops"
    ["date: 2023-01-01 09:00\nduration: 30"] "oops" [] (.invalidField ⟨"oops"⟩)
    (by decide) (by decide) (by decide)

end Seri
